import Mathlib

/-!
Verification of the StarkPulse security-logic repository.

The repository ships the Python validation script
`scripts/test_security_logic.py` (embedded below from its source), which
inspects the Cairo contract files by substring search.  The Cairo contract
files themselves (`crypto_utils.cairo`, `security_monitor.cairo`,
`transaction_monitor.cairo`, `access_control.cairo`) are not part of the
available sources; the operations they implement are modelled from the
specification where a claim needs them.
-/

namespace StarkPulse

/-! ## Substring search (the Python `in` operator on strings) -/

/-- `leadMatch pat s` is true when `pat` occurs at the very start of `s`. -/
def leadMatch : List Char → List Char → Bool
  | [], _ => true
  | _ :: _, [] => false
  | a :: as, b :: bs => a == b && leadMatch as bs

/-- `occursIn pat s` is true when `pat` occurs contiguously anywhere in `s`. -/
def occursIn (pat : List Char) : List Char → Bool
  | [] => leadMatch pat []
  | c :: rest => leadMatch pat (c :: rest) || occursIn pat rest

/-- Python's `pat in content` on strings: contiguous substring test. -/
def strContains (content pat : String) : Bool :=
  occursIn pat.data content.data

/-! ## `test_crypto_utils_logic` (scripts/test_security_logic.py, lines 11-79)

Each Python `tests.append((name, b))` pair is mirrored; an `if c: append
(n, True) else: append (n, False)` block is one pair `(n, c)`. -/

def test_crypto_utils_logic (content : String) : List (String × Bool) :=
  (if strContains content "verify_hash_chain" then
    [("Hash chain validates previous hash",
        strContains content "entry.previous_hash != previous_hash"),
     ("Hash chain recomputes hashes for verification",
        strContains content "computed_data_hash" &&
        strContains content "computed_entry_hash")]
   else []) ++
  (if strContains content "verify_transaction_signature" then
    [("Signature verification checks for zero components",
        strContains content "signature.r == 0 || signature.s == 0"),
     ("Signature verification checks for zero signer",
        strContains content "signer.is_zero()")]
   else []) ++
  (if strContains content "verify_merkle_proof" then
    [("Merkle proof checks depth limit",
        strContains content "MERKLE_TREE_DEPTH" &&
        strContains content "proof_length >"),
     ("Merkle proof checks array length consistency",
        strContains content "proof.indices.len() != proof_length")]
   else []) ++
  (if strContains content "generate_secure_nonce" then
    [("Secure nonce uses multiple entropy sources",
        decide (2 ≤ (List.countP (fun s => strContains content s)
          ["current_nonce", "timestamp", "block_number"]))),
     ("Secure nonce updates counter",
        strContains content "self.nonce_counter.write(current_nonce + 1)")]
   else [])

/-! ## `test_security_monitor_logic` (lines 81-147) -/

def test_security_monitor_logic (content : String) : List (String × Bool) :=
  (if strContains content "analyze_transaction_anomaly" then
    [("Anomaly detection analyzes amount deviation",
        strContains content "AMOUNT_DEVIATION_THRESHOLD" &&
        strContains content "deviation >"),
     ("Anomaly detection analyzes frequency",
        strContains content "FREQUENCY_THRESHOLD" &&
        strContains content "pattern.frequency >"),
     ("Anomaly detection analyzes temporal patterns",
        strContains content "hour_of_day" &&
        strContains content "< 6 || hour_of_day > 22")]
   else []) ++
  (if strContains content "ANOMALY_THRESHOLD_CRITICAL" then
    [("Risk assessment uses threshold comparison",
        strContains content "anomaly_score >= ANOMALY_THRESHOLD_CRITICAL")]
   else []) ++
  (if strContains content "create_security_alert" then
    [("Alert creation generates unique IDs",
        strContains content "alert_counter.read() + 1"),
     ("Alert creation stores alerts properly",
        strContains content "security_alerts.write" &&
        strContains content "user_alerts")]
   else []) ++
  (if strContains content "update_user_pattern" then
    [("Pattern update uses exponential moving average",
        strContains content "alpha" && strContains content "100 - alpha"),
     ("Pattern update adjusts deviation score",
        strContains content "time_diff < 3600" &&
        strContains content "deviation_score +=")]
   else [])

/-! ## `test_transaction_monitor_logic` (lines 149-215) -/

def test_transaction_monitor_logic (content : String) : List (String × Bool) :=
  (if strContains content "record_transaction" then
    [("Transaction recording generates integrity hash",
        strContains content "integrity_hash" &&
        strContains content "pedersen_hash"),
     ("Transaction recording calculates risk score",
        strContains content "risk_score"),
     ("Transaction recording updates hash chain",
        strContains content "hash_chain_latest" &&
        strContains content "chain_entry_hash")]
   else []) ++
  (if strContains content "verify_transaction_integrity" then
    [("Transaction verification recomputes hash",
        strContains content "computed_hash" &&
        strContains content "transaction.integrity_hash")]
   else []) ++
  (if strContains content "create_transaction_proof" then
    [("Proof creation checks authorization",
        strContains content
          "caller == transaction.user || caller == self.admin.read()"),
     ("Proof creation updates audit trail",
        strContains content "audit_trail" &&
        strContains content "PROOF_CREATED")]
   else []) ++
  (if strContains content "flag_suspicious_transaction" then
    [("Transaction flagging checks authorization",
        strContains content "caller == self.admin.read()" ||
        strContains content "SECURITY_AUDITOR_ROLE"),
     ("Transaction flagging updates flag",
        strContains content "transaction.flagged = true")]
   else [])

/-! ## `test_access_control_logic` (lines 217-247) -/

def test_access_control_logic (content : String) : List (String × Bool) :=
  (if strContains content "grant_role" then
    [("Role granting checks admin authorization",
        strContains content "has_role" && strContains content "admin_role")]
   else []) ++
  [("Access control defines security roles",
      strContains content "SECURITY_AUDITOR_ROLE" &&
      strContains content "ANOMALY_DETECTOR_ROLE"),
   ("Access control supports role revocation",
      strContains content "revoke_role")]

/-! ## `run_all_logic_tests` (lines 249-282)

The script concatenates the four component test lists, counts passed
and failed entries, and returns `True` exactly when `failed == 0`. -/

def all_logic_tests (crypto security monitor access : String) :
    List (String × Bool) :=
  test_crypto_utils_logic crypto ++ test_security_monitor_logic security ++
  test_transaction_monitor_logic monitor ++ test_access_control_logic access

def run_all_logic_tests (crypto security monitor access : String) : Bool :=
  let all_tests := all_logic_tests crypto security monitor access
  let passed := List.countP (fun t => t.2) all_tests
  let total := all_tests.length
  let failed := total - passed
  failed == 0

/-! ## Crypto utilities (modelled from the spec, §4.1)

The Cairo source `contracts/src/utils/crypto_utils.cairo` is not among
the available sources (the Python script above only greps it), so the
operations below are modelled from the specification. -/

/-- Modelled from the spec: the Pedersen hash used throughout
`crypto_utils.cairo`.  Modelled as an injective pairing on ℕ, a
collision-free stand-in for the collision-resistant hash. -/
def pedersen_hash (a b : Nat) : Nat := Nat.pair a b

/-- Modelled from the spec: `HashChainEntry` is
`\x7bsequence_number, data_hash, previous_hash, entry_hash, timestamp\x7d`. -/
structure HashChainEntry where
  sequence_number : Nat
  data_hash : Nat
  previous_hash : Nat
  entry_hash : Nat
  timestamp : Nat
deriving DecidableEq, Repr

/-- Modelled from the spec: the well-formedness invariant
`entry_hash = H(data_hash, previous_hash, sequence_number, timestamp)`. -/
def compute_entry_hash (e : HashChainEntry) : Nat :=
  pedersen_hash e.data_hash
    (pedersen_hash e.previous_hash
      (pedersen_hash e.sequence_number e.timestamp))

/-- Modelled from the spec: `verify_hash_chain(entry, previous_hash)`
recomputes the entry hash from the entry's fields and requires
`entry.previous_hash == previous_hash` AND the recomputed hash to equal
the stored one. -/
def verify_hash_chain (entry : HashChainEntry) (previous_hash : Nat) : Bool :=
  entry.previous_hash == previous_hash &&
    compute_entry_hash entry == entry.entry_hash

/-- Modelled from the spec: an ECDSA signature with components `r` and `s`. -/
structure Signature where
  r : Nat
  s : Nat
deriving DecidableEq, Repr

/-- Modelled from the spec: `verify_transaction_signature(message,
signature, signer)` rejects (returns false, `InvalidSignature`) if either
signature component is zero or the signer is the zero identity; otherwise
it performs standard elliptic-curve verification, which is not further
specified and is therefore taken as a parameter `ecdsa_check`. -/
def verify_transaction_signature (ecdsa_check : Nat → Signature → Nat → Bool)
    (message : Nat) (signature : Signature) (signer : Nat) : Bool :=
  if signature.r == 0 || signature.s == 0 then false
  else if signer == 0 then false
  else ecdsa_check message signature signer

/-- Modelled from the spec: `MERKLE_TREE_DEPTH` bounds proof length; its
numeric value is not given by the available material, modelled as 20. -/
def MERKLE_TREE_DEPTH : Nat := 20

inductive MerkleError where
  | ProofTooDeep
  | MalformedProof
deriving DecidableEq, Repr

/-- Modelled from the spec: `MerkleProof` carries the leaf, the declared
`proof_length`, the direction bits and the sibling hashes. -/
structure MerkleProof where
  leaf : Nat
  proof_length : Nat
  indices : List Bool
  siblings : List Nat
deriving DecidableEq, Repr

/-- Modelled from the spec: folds a leaf upward through each
sibling/index pair, hashing on the side selected by the index bit. -/
def merkle_fold : Nat → List Bool → List Nat → Nat
  | current, [], _ => current
  | current, _ :: _, [] => current
  | current, idx :: idxs, sib :: sibs =>
      merkle_fold (if idx then pedersen_hash sib current
                   else pedersen_hash current sib) idxs sibs

/-- Modelled from the spec: `verify_merkle_proof(leaf, proof,
expected_root)` fails with `ProofTooDeep` if `proof_length >
MERKLE_TREE_DEPTH`, with `MalformedProof` if `indices.length !=
proof_length` or `siblings.length != proof_length`, and otherwise folds
the leaf upward and compares to `expected_root`. -/
def verify_merkle_proof (leaf : Nat) (proof : MerkleProof)
    (expected_root : Nat) : Except MerkleError Bool :=
  if MERKLE_TREE_DEPTH < proof.proof_length then .error .ProofTooDeep
  else if proof.indices.length ≠ proof.proof_length ∨
      proof.siblings.length ≠ proof.proof_length then .error .MalformedProof
  else .ok (merkle_fold leaf proof.indices proof.siblings == expected_root)

/-- Modelled from the spec: per-user monotonic nonce counters, the
mutable state behind `generate_secure_nonce`. -/
structure NonceState where
  nonce_counter : Nat → Nat

/-- Modelled from the spec: `generate_secure_nonce(user)` combines the
monotonic counter, the wall-clock timestamp and the block number via a
one-way hash and advances the user's stored counter by one. -/
def generate_secure_nonce (st : NonceState) (user timestamp block_number : Nat) :
    Nat × NonceState :=
  (pedersen_hash user
     (pedersen_hash (st.nonce_counter user)
       (pedersen_hash timestamp block_number)),
   ⟨fun u => if u = user then st.nonce_counter user + 1
             else st.nonce_counter u⟩)

/-- Sequential calls to `generate_secure_nonce` for one user, threading
the state; each list element supplies that call's timestamp and block
number (so reordering entropy inputs is quantifying over this list). -/
def run_nonce_calls (st : NonceState) (user : Nat) :
    List (Nat × Nat) → List Nat × NonceState
  | [] => ([], st)
  | e :: rest =>
      ((generate_secure_nonce st user e.1 e.2).1 ::
        (run_nonce_calls (generate_secure_nonce st user e.1 e.2).2 user rest).1,
       (run_nonce_calls (generate_secure_nonce st user e.1 e.2).2 user rest).2)

/-- The counter component recoverable from a nonce built by
`generate_secure_nonce` (the pairing is invertible). -/
def nonce_counter_component (n : Nat) : Nat :=
  (Nat.unpair (Nat.unpair n).2).1

/-! ## Pattern & anomaly engine (modelled from the spec, §4.3)

`contracts/src/utils/security_monitor.cairo` is likewise not among the
available sources; the engine is modelled from the specification. -/

/-- Modelled from the spec: the fixed EMA smoothing weight
`alpha ∈ (0,100]`; its numeric value is not given, modelled as 20. -/
def alpha : Nat := 20

/-- Modelled from the spec: the fixed increment added to
`deviation_score` on rapid repeat activity; value modelled as 10. -/
def DEVIATION_INCREMENT : Nat := 10

/-- Modelled from the spec: the fixed amount by which `deviation_score`
decays toward zero otherwise; value modelled as 5. -/
def DEVIATION_DECAY : Nat := 5

/-- Modelled from the spec: `UserPattern` is
`\x7bavg_amount, frequency, last_timestamp, deviation_score, hour_histogram\x7d`. -/
structure UserPattern where
  avg_amount : Nat
  frequency : Nat
  last_timestamp : Nat
  deviation_score : Nat
  hour_histogram : Nat → Nat

/-- Modelled from the spec: `update_user_pattern(user, transaction)`
sets `avg_amount := (alpha * amount + (100 - alpha) * avg_amount) / 100`,
increments `deviation_score` on a rapid repeat
(`timestamp - last_timestamp < 3600`), decays it toward zero otherwise,
updates the hour-of-day histogram bucket and persists
`last_timestamp := timestamp`. -/
def update_user_pattern (pat : UserPattern) (amount timestamp : Nat) :
    UserPattern :=
  { avg_amount := (alpha * amount + (100 - alpha) * pat.avg_amount) / 100,
    frequency := pat.frequency + 1,
    last_timestamp := timestamp,
    deviation_score :=
      if timestamp - pat.last_timestamp < 3600 then
        pat.deviation_score + DEVIATION_INCREMENT
      else
        pat.deviation_score - DEVIATION_DECAY,
    hour_histogram := fun h =>
      if h = timestamp / 3600 % 24 then pat.hour_histogram h + 1
      else pat.hour_histogram h }

/-- Modelled from the spec: `SecurityAlert` is
`\x7bid, user, anomaly_score, reason, timestamp\x7d`. -/
structure SecurityAlert where
  id : Nat
  user : Nat
  anomaly_score : Nat
  reason : Nat
  timestamp : Nat
deriving DecidableEq, Repr

/-- Modelled from the spec: the alert-side state of the security
monitor — the monotonic `alert_counter`, the global index of alerts by
id, and the per-user index of alert ids. -/
structure MonitorState where
  alert_counter : Nat
  security_alerts : Nat → Option SecurityAlert
  user_alerts : Nat → List Nat

/-- Modelled from the spec: `create_security_alert(user, anomaly_score,
reason)` allocates the next counter value (`alert_counter.read() + 1`)
as the alert id, persists the alert in the global index and in the
calling user's index, and returns it. -/
def create_security_alert (st : MonitorState)
    (user anomaly_score reason timestamp : Nat) :
    SecurityAlert × MonitorState :=
  (⟨st.alert_counter + 1, user, anomaly_score, reason, timestamp⟩,
   { alert_counter := st.alert_counter + 1,
     security_alerts := fun i =>
       if i = st.alert_counter + 1 then
         some ⟨st.alert_counter + 1, user, anomaly_score, reason, timestamp⟩
       else st.security_alerts i,
     user_alerts := fun u =>
       if u = user then (st.alert_counter + 1) :: st.user_alerts u
       else st.user_alerts u })

/-- Sequential calls to `create_security_alert`, threading the state;
each list element supplies `(user, anomaly_score, reason, timestamp)`. -/
def run_alert_calls (st : MonitorState) :
    List (Nat × Nat × Nat × Nat) → List SecurityAlert × MonitorState
  | [] => ([], st)
  | e :: rest =>
      ((create_security_alert st e.1 e.2.1 e.2.2.1 e.2.2.2).1 ::
        (run_alert_calls
          (create_security_alert st e.1 e.2.1 e.2.2.1 e.2.2.2).2 rest).1,
       (run_alert_calls
          (create_security_alert st e.1 e.2.1 e.2.2.1 e.2.2.2).2 rest).2)

/-! ## Transaction monitor (modelled from the spec, §4.4)

`contracts/src/transactions/transaction_monitor.cairo` is not among the
available sources; `create_transaction_proof` is modelled from the
specification and the authorization line the Python script greps for,
`caller == transaction.user || caller == self.admin.read()`. -/

/-- Modelled from the spec: the audit-trail entry code appended when a
proof is created. -/
def PROOF_CREATED : Nat := 1

/-- Modelled from the spec: `Transaction` is `\x7bid, user, action_id,
amount, timestamp, integrity_hash, risk_score, flagged, audit_trail\x7d`. -/
structure Transaction where
  id : Nat
  user : Nat
  action_id : Nat
  amount : Nat
  timestamp : Nat
  integrity_hash : Nat
  risk_score : Nat
  flagged : Bool
  audit_trail : List Nat
deriving DecidableEq, Repr

inductive TxError where
  | Unauthorized
  | TransactionNotFound
deriving DecidableEq, Repr

/-- Modelled from the spec: the transaction monitor's state — the admin
address and the transaction store indexed by id. -/
structure TxMonitorState where
  admin : Nat
  transactions : Nat → Option Transaction

/-- Modelled from the spec: the Merkle proof constructed for a
transaction; the construction beyond determinism is not specified,
modelled as the depth-0 proof of the transaction's integrity hash. -/
def build_transaction_proof (tx : Transaction) : MerkleProof :=
  { leaf := tx.integrity_hash, proof_length := 0, indices := [],
    siblings := [] }

/-- Modelled from the spec: `create_transaction_proof(caller, id)` fails
with `Unauthorized` unless the caller is the transaction's user or the
admin; on success it returns the proof and appends `PROOF_CREATED` to
the transaction's audit trail. -/
def create_transaction_proof (st : TxMonitorState) (caller id : Nat) :
    Except TxError (MerkleProof × TxMonitorState) :=
  match st.transactions id with
  | none => .error .TransactionNotFound
  | some tx =>
      if caller = tx.user ∨ caller = st.admin then
        .ok (build_transaction_proof tx,
          { st with transactions := fun i =>
              if i = id then
                some { tx with
                  audit_trail := tx.audit_trail ++ [PROOF_CREATED] }
              else st.transactions i })
      else .error .Unauthorized

/-! ## Access control (modelled from the spec, §4.2)

`contracts/src/utils/access_control.cairo` is not among the available
sources; the role registry is modelled from the specification. -/

/-- Modelled from the spec: the ADMIN role identifier. -/
def ADMIN_ROLE : Nat := 1

/-- Modelled from the spec: the SECURITY_AUDITOR role identifier. -/
def SECURITY_AUDITOR_ROLE : Nat := 2

/-- Modelled from the spec: the ANOMALY_DETECTOR role identifier. -/
def ANOMALY_DETECTOR_ROLE : Nat := 3

/-- Modelled from the spec: the role registry, a duplicate-free list of
`(principal, role)` assignments. -/
structure AccessState where
  pairs : List (Nat × Nat)

inductive AccessError where
  | Unauthorized
  | LastAdminRevocationDenied
deriving DecidableEq, Repr

/-- Modelled from the spec: `has_role(principal, role)` is a pure
lookup. -/
def has_role (st : AccessState) (principal role : Nat) : Bool :=
  decide ((principal, role) ∈ st.pairs)

/-- The number of principals currently holding the ADMIN role. -/
def admin_count (st : AccessState) : Nat :=
  List.countP (fun p => p.2 == ADMIN_ROLE) st.pairs

/-- Modelled from the spec: `grant_role(caller, principal, role)` fails
with `Unauthorized` unless the caller holds ADMIN; adds the pair
(keeping assignments duplicate-free). -/
def grant_role (st : AccessState) (caller principal role : Nat) :
    Except AccessError AccessState :=
  if has_role st caller ADMIN_ROLE then
    if has_role st principal role then .ok st
    else .ok ⟨(principal, role) :: st.pairs⟩
  else .error .Unauthorized

/-- Modelled from the spec: `revoke_role(caller, principal, role)` fails
with `Unauthorized` unless the caller holds ADMIN, fails with
`LastAdminRevocationDenied` when it would revoke ADMIN from the last
remaining admin, and otherwise removes the pair (no-op if absent). -/
def revoke_role (st : AccessState) (caller principal role : Nat) :
    Except AccessError AccessState :=
  if has_role st caller ADMIN_ROLE then
    if role = ADMIN_ROLE ∧ has_role st principal ADMIN_ROLE = true ∧
        admin_count st ≤ 1 then
      .error .LastAdminRevocationDenied
    else .ok ⟨st.pairs.filter (fun p => decide (¬ p = (principal, role)))⟩
  else .error .Unauthorized

/-- A call to the role registry: grant or revoke. -/
inductive AccessOp where
  | grant (caller principal role : Nat)
  | revoke (caller principal role : Nat)

/-- One registry call; a failed call leaves the state unchanged. -/
def apply_op (st : AccessState) : AccessOp → AccessState
  | .grant c p r =>
      match grant_role st c p r with
      | .ok st' => st'
      | .error _ => st
  | .revoke c p r =>
      match revoke_role st c p r with
      | .ok st' => st'
      | .error _ => st

/-- A sequence of registry calls. -/
def apply_ops (st : AccessState) : List AccessOp → AccessState
  | [] => st
  | op :: ops => apply_ops (apply_op st op) ops

end StarkPulse

namespace StarkPulse

/-- C9: `run_all_logic_tests` returns `True` if and only if every
`(name, result)` pair in the concatenation of the four component test
lists has result `True` (equivalently, the computed failed count is
zero), and it returns `False` otherwise. -/
theorem run_all_logic_tests_true_iff_all_pass
    (crypto security monitor access : String) :
    run_all_logic_tests crypto security monitor access = true ↔
      (all_logic_tests crypto security monitor access).all
        (fun t => t.2) = true := by
  unfold run_all_logic_tests
  rw [beq_iff_eq, Nat.sub_eq_zero_iff_le, List.all_eq_true]
  constructor
  · intro h x hx
    have hle := List.countP_le_length (p := fun t : String × Bool => t.2)
      (l := all_logic_tests crypto security monitor access)
    exact List.countP_eq_length.1 (le_antisymm hle h) x hx
  · intro h
    exact le_of_eq (List.countP_eq_length.2 h).symm

/-- C10: if the crypto_utils file content contains none of the substrings
"verify_hash_chain", "verify_transaction_signature", "verify_merkle_proof"
and "generate_secure_nonce", then `test_crypto_utils_logic` returns the
empty list, contributing zero tests and zero failures. -/
theorem test_crypto_utils_logic_empty_of_absent (content : String)
    (h1 : strContains content "verify_hash_chain" = false)
    (h2 : strContains content "verify_transaction_signature" = false)
    (h3 : strContains content "verify_merkle_proof" = false)
    (h4 : strContains content "generate_secure_nonce" = false) :
    test_crypto_utils_logic content = [] := by
  unfold test_crypto_utils_logic
  simp [h1, h2, h3, h4]

/-- Witness for C10: the empty file content contains none of the four
function names, and the resulting test list is empty. -/
theorem test_crypto_utils_logic_empty_of_absent_witness :
    test_crypto_utils_logic "" = [] :=
  test_crypto_utils_logic_empty_of_absent "" rfl rfl rfl rfl

/-- The modelled hash is injective, the stand-in for collision resistance. -/
theorem pedersen_hash_inj {a b c d : Nat} :
    pedersen_hash a b = pedersen_hash c d ↔ a = c ∧ b = d :=
  Nat.pair_eq_pair

/-- C1: `verify_hash_chain` returns true only if the stored
`previous_hash` equals the supplied one AND the recomputed `entry_hash`
equals the stored one; mutating a recorded entry's `data_hash` or
`previous_hash` makes verification fail. -/
theorem verify_hash_chain_spec :
    (∀ (e : HashChainEntry) (p : Nat),
        verify_hash_chain e p = true ↔
          (e.previous_hash = p ∧ compute_entry_hash e = e.entry_hash))
    ∧ (∀ (e : HashChainEntry) (p d : Nat),
        e.entry_hash = compute_entry_hash e → d ≠ e.data_hash →
        verify_hash_chain { e with data_hash := d } p = false)
    ∧ (∀ (e : HashChainEntry) (q : Nat), q ≠ e.previous_hash →
        verify_hash_chain { e with previous_hash := q }
          e.previous_hash = false) := by
  refine ⟨?_, ?_, ?_⟩
  · intro e p
    simp [verify_hash_chain]
  · intro e p d hwf hne
    have hmut : compute_entry_hash { e with data_hash := d } ≠ e.entry_hash := by
      rw [hwf]
      simp only [compute_entry_hash]
      intro h
      exact hne (pedersen_hash_inj.1 h).1
    simp [verify_hash_chain, hmut]
  · intro e q hne
    simp [verify_hash_chain, hne]

/-- Witness for C1: a concrete well-formed entry whose `data_hash` is
mutated from 1 to 5 no longer verifies. -/
theorem verify_hash_chain_spec_witness :
    verify_hash_chain
      { sequence_number := 0, data_hash := 5, previous_hash := 2,
        entry_hash := compute_entry_hash
          { sequence_number := 0, data_hash := 1, previous_hash := 2,
            entry_hash := 0, timestamp := 3 },
        timestamp := 3 } 2 = false :=
  verify_hash_chain_spec.2.1
    { sequence_number := 0, data_hash := 1, previous_hash := 2,
      entry_hash := compute_entry_hash
        { sequence_number := 0, data_hash := 1, previous_hash := 2,
          entry_hash := 0, timestamp := 3 },
      timestamp := 3 } 2 5 (by simp [compute_entry_hash]) (by decide)

/-- C2: `verify_transaction_signature` returns false whenever `r = 0`,
`s = 0` or the signer is the zero identity, for every message and every
underlying elliptic-curve check. -/
theorem verify_transaction_signature_rejects_zero
    (ecdsa_check : Nat → Signature → Nat → Bool) (message : Nat)
    (signature : Signature) (signer : Nat)
    (h : signature.r = 0 ∨ signature.s = 0 ∨ signer = 0) :
    verify_transaction_signature ecdsa_check message signature signer
      = false := by
  unfold verify_transaction_signature
  rcases h with h | h | h <;> simp [h]

/-- Witness for C2: a signature with `r = 0` is rejected even when the
underlying curve check would accept everything. -/
theorem verify_transaction_signature_rejects_zero_witness :
    verify_transaction_signature (fun _ _ _ => true) 0 ⟨0, 5⟩ 7 = false :=
  verify_transaction_signature_rejects_zero
    (fun _ _ _ => true) 0 ⟨0, 5⟩ 7 (Or.inl rfl)

/-- C3: `verify_merkle_proof` fails with `ProofTooDeep` when
`proof_length > MERKLE_TREE_DEPTH`, with `MalformedProof` when either
array's length differs from `proof_length`, and otherwise returns
whether folding the leaf through the sibling/index pairs yields the
expected root. -/
theorem verify_merkle_proof_spec (leaf : Nat) (proof : MerkleProof)
    (root : Nat) :
    (MERKLE_TREE_DEPTH < proof.proof_length →
        verify_merkle_proof leaf proof root = .error .ProofTooDeep)
    ∧ (proof.proof_length ≤ MERKLE_TREE_DEPTH →
        (proof.indices.length ≠ proof.proof_length ∨
         proof.siblings.length ≠ proof.proof_length) →
        verify_merkle_proof leaf proof root = .error .MalformedProof)
    ∧ (proof.proof_length ≤ MERKLE_TREE_DEPTH →
        proof.indices.length = proof.proof_length →
        proof.siblings.length = proof.proof_length →
        verify_merkle_proof leaf proof root =
          .ok (merkle_fold leaf proof.indices proof.siblings == root)) := by
  refine ⟨?_, ?_, ?_⟩
  · intro hdeep
    simp [verify_merkle_proof, hdeep]
  · intro hle hbad
    rw [verify_merkle_proof, if_neg (by omega), if_pos hbad]
  · intro hle hi hs
    rw [verify_merkle_proof, if_neg (by omega),
      if_neg (by push_neg; exact ⟨hi, hs⟩)]

/-- Witness for C3: a depth-1 proof with matching lengths folds the leaf
with its sibling and compares to the root. -/
theorem verify_merkle_proof_spec_witness :
    verify_merkle_proof 3
      { leaf := 3, proof_length := 1, indices := [false], siblings := [7] }
      52 = .ok (merkle_fold 3 [false] [7] == 52) :=
  (verify_merkle_proof_spec 3
    { leaf := 3, proof_length := 1, indices := [false], siblings := [7] }
    52).2.2 (by decide) (by decide) (by decide)

/-- Helper: one nonce call advances the calling user's counter by one. -/
theorem generate_secure_nonce_counter (st : NonceState) (user t b : Nat) :
    (generate_secure_nonce st user t b).2.nonce_counter user =
      st.nonce_counter user + 1 := by
  simp [generate_secure_nonce]

/-- Helper: the counter component recoverable from a generated nonce. -/
theorem nonce_counter_component_generate (st : NonceState) (user t b : Nat) :
    nonce_counter_component (generate_secure_nonce st user t b).1 =
      st.nonce_counter user := by
  simp [generate_secure_nonce, nonce_counter_component, pedersen_hash,
    Nat.unpair_pair]

/-- Helper: a run of nonce calls advances the counter by its length. -/
theorem run_nonce_calls_counter (user : Nat) (env : List (Nat × Nat))
    (st : NonceState) :
    (run_nonce_calls st user env).2.nonce_counter user =
      st.nonce_counter user + env.length := by
  induction env generalizing st with
  | nil => simp [run_nonce_calls]
  | cons e rest ih =>
      simp only [run_nonce_calls, ih, generate_secure_nonce_counter,
        List.length_cons]
      omega

/-- Helper: every nonce produced by a run carries a counter component at
least the starting counter. -/
theorem run_nonce_calls_lower_bound (user : Nat) (env : List (Nat × Nat))
    (st : NonceState) (x : Nat)
    (hx : x ∈ (run_nonce_calls st user env).1) :
    st.nonce_counter user ≤ nonce_counter_component x := by
  induction env generalizing st with
  | nil => simp [run_nonce_calls] at hx
  | cons e rest ih =>
      simp only [run_nonce_calls, List.mem_cons] at hx
      rcases hx with hx | hx
      · rw [hx, nonce_counter_component_generate]
      · have h := ih _ hx
        rw [generate_secure_nonce_counter] at h
        omega

/-- Helper: the nonces produced by a run are pairwise distinct. -/
theorem run_nonce_calls_nodup (user : Nat) (env : List (Nat × Nat))
    (st : NonceState) :
    ((run_nonce_calls st user env).1).Nodup := by
  induction env generalizing st with
  | nil => simp [run_nonce_calls]
  | cons e rest ih =>
      simp only [run_nonce_calls, List.nodup_cons]
      refine ⟨?_, ih _⟩
      intro hmem
      have h := run_nonce_calls_lower_bound user rest _ _ hmem
      rw [generate_secure_nonce_counter,
        nonce_counter_component_generate] at h
      omega

/-- C4: every call to `generate_secure_nonce` advances the user's
stored counter by exactly one (so `n` calls advance it by exactly `n`),
and the nonces returned by any sequence of calls are pairwise distinct,
whatever timestamps and block numbers each call observes. -/
theorem generate_secure_nonce_spec (st : NonceState) (user : Nat)
    (env : List (Nat × Nat)) :
    (∀ t b, (generate_secure_nonce st user t b).2.nonce_counter user =
        st.nonce_counter user + 1)
    ∧ (run_nonce_calls st user env).2.nonce_counter user =
        st.nonce_counter user + env.length
    ∧ ((run_nonce_calls st user env).1).Nodup :=
  ⟨fun t b => generate_secure_nonce_counter st user t b,
   run_nonce_calls_counter user env st,
   run_nonce_calls_nodup user env st⟩

/-- C5: `update_user_pattern` sets the new average to
`(alpha * amount + (100 - alpha) * avg_amount) / 100`, increments
`deviation_score` by the fixed increment when
`timestamp - last_timestamp < 3600`, decays it toward zero otherwise,
and persists `last_timestamp = timestamp`. -/
theorem update_user_pattern_spec (pat : UserPattern) (amount timestamp : Nat) :
    (update_user_pattern pat amount timestamp).avg_amount =
      (alpha * amount + (100 - alpha) * pat.avg_amount) / 100
    ∧ (timestamp - pat.last_timestamp < 3600 →
        (update_user_pattern pat amount timestamp).deviation_score =
          pat.deviation_score + DEVIATION_INCREMENT)
    ∧ (¬ timestamp - pat.last_timestamp < 3600 →
        (update_user_pattern pat amount timestamp).deviation_score ≤
            pat.deviation_score
        ∧ (pat.deviation_score ≠ 0 →
            (update_user_pattern pat amount timestamp).deviation_score <
              pat.deviation_score))
    ∧ (update_user_pattern pat amount timestamp).last_timestamp = timestamp := by
  refine ⟨rfl, ?_, ?_, rfl⟩
  · intro h
    simp [update_user_pattern, h]
  · intro h
    simp only [update_user_pattern, if_neg h]
    constructor
    · omega
    · intro hnz
      have : 0 < DEVIATION_DECAY := by decide
      omega

/-- Witness for C5: a rapid repeat (gap 100 < 3600) increments the
deviation score from 7 by the fixed increment. -/
theorem update_user_pattern_spec_witness :
    (update_user_pattern ⟨100, 0, 0, 7, fun _ => 0⟩ 50 100).deviation_score =
      7 + DEVIATION_INCREMENT :=
  (update_user_pattern_spec ⟨100, 0, 0, 7, fun _ => 0⟩ 50 100).2.1 (by decide)

/-- C7: `create_transaction_proof` fails with `Unauthorized` unless the
caller is the transaction's user or holds the admin role; on success it
returns the constructed Merkle proof and appends `PROOF_CREATED` to that
transaction's audit trail. -/
theorem create_transaction_proof_spec (st : TxMonitorState)
    (caller id : Nat) (tx : Transaction)
    (htx : st.transactions id = some tx) :
    (¬ (caller = tx.user ∨ caller = st.admin) →
        create_transaction_proof st caller id = .error .Unauthorized)
    ∧ ((caller = tx.user ∨ caller = st.admin) →
        ∃ st', create_transaction_proof st caller id =
            .ok (build_transaction_proof tx, st')
          ∧ st'.transactions id =
              some { tx with
                audit_trail := tx.audit_trail ++ [PROOF_CREATED] }) := by
  constructor
  · intro hno
    rw [create_transaction_proof, htx]
    exact if_neg hno
  · intro hyes
    refine ⟨{ st with transactions := fun i =>
        (if i = id then
          some { tx with audit_trail := tx.audit_trail ++ [PROOF_CREATED] }
        else st.transactions i) }, ?_, ?_⟩
    · rw [create_transaction_proof, htx]
      exact if_pos hyes
    · simp

/-- Helper: one alert call advances the counter by one. -/
theorem create_security_alert_counter (st : MonitorState) (u s r t : Nat) :
    (create_security_alert st u s r t).2.alert_counter =
      st.alert_counter + 1 := rfl

/-- Helper: the id of the created alert is the advanced counter value. -/
theorem create_security_alert_id (st : MonitorState) (u s r t : Nat) :
    (create_security_alert st u s r t).1.id = st.alert_counter + 1 := rfl

/-- Helper: a run of alert calls advances the counter by its length. -/
theorem run_alert_calls_counter (env : List (Nat × Nat × Nat × Nat))
    (st : MonitorState) :
    (run_alert_calls st env).2.alert_counter =
      st.alert_counter + env.length := by
  induction env generalizing st with
  | nil => simp [run_alert_calls]
  | cons e rest ih =>
      simp only [run_alert_calls, ih, create_security_alert_counter,
        List.length_cons]
      omega

/-- Helper: every alert produced by a run has an id above the starting
counter. -/
theorem run_alert_calls_id_lower (env : List (Nat × Nat × Nat × Nat))
    (st : MonitorState) (a : SecurityAlert)
    (ha : a ∈ (run_alert_calls st env).1) :
    st.alert_counter + 1 ≤ a.id := by
  induction env generalizing st with
  | nil => simp [run_alert_calls] at ha
  | cons e rest ih =>
      simp only [run_alert_calls, List.mem_cons] at ha
      rcases ha with ha | ha
      · rw [ha, create_security_alert_id]
      · have h := ih _ ha
        rw [create_security_alert_counter] at h
        omega

/-- Helper: a run never overwrites a global-index slot at or below the
starting counter. -/
theorem run_alert_calls_global_stable (env : List (Nat × Nat × Nat × Nat))
    (st : MonitorState) (k : Nat) (hk : k ≤ st.alert_counter) :
    (run_alert_calls st env).2.security_alerts k = st.security_alerts k := by
  induction env generalizing st with
  | nil => rfl
  | cons e rest ih =>
      simp only [run_alert_calls]
      rw [ih _ (by rw [create_security_alert_counter]; omega)]
      simp only [create_security_alert]
      rw [if_neg (by omega)]

/-- Helper: per-user indices only grow during a run. -/
theorem run_alert_calls_user_mono (env : List (Nat × Nat × Nat × Nat))
    (st : MonitorState) (u i : Nat) (hi : i ∈ st.user_alerts u) :
    i ∈ (run_alert_calls st env).2.user_alerts u := by
  induction env generalizing st with
  | nil => exact hi
  | cons e rest ih =>
      simp only [run_alert_calls]
      refine ih _ ?_
      simp only [create_security_alert]
      by_cases hu : u = e.1
      · rw [if_pos hu]
        exact List.mem_cons_of_mem _ hi
      · rw [if_neg hu]
        exact hi

/-- Helper: the ids of the alerts produced by a run are strictly
increasing along the run. -/
theorem run_alert_calls_sorted (env : List (Nat × Nat × Nat × Nat))
    (st : MonitorState) :
    ((run_alert_calls st env).1).Pairwise (fun a b => a.id < b.id) := by
  induction env generalizing st with
  | nil => simp [run_alert_calls]
  | cons e rest ih =>
      simp only [run_alert_calls, List.pairwise_cons]
      refine ⟨?_, ih _⟩
      intro b hb
      have h := run_alert_calls_id_lower rest _ b hb
      rw [create_security_alert_counter] at h
      rw [create_security_alert_id]
      omega

/-- Helper: every alert produced by a run is persisted in the global
index and in its user's index of the final state. -/
theorem run_alert_calls_persisted (env : List (Nat × Nat × Nat × Nat))
    (st : MonitorState) (a : SecurityAlert)
    (ha : a ∈ (run_alert_calls st env).1) :
    (run_alert_calls st env).2.security_alerts a.id = some a ∧
      a.id ∈ (run_alert_calls st env).2.user_alerts a.user := by
  induction env generalizing st with
  | nil => simp [run_alert_calls] at ha
  | cons e rest ih =>
      simp only [run_alert_calls, List.mem_cons] at ha ⊢
      rcases ha with ha | ha
      · subst ha
        constructor
        · rw [run_alert_calls_global_stable rest _ _
            (by rw [create_security_alert_counter, create_security_alert_id])]
          simp [create_security_alert]
        · refine run_alert_calls_user_mono rest _ _ _ ?_
          simp [create_security_alert]
      · exact ih _ ha

/-- C6: across every sequence of `create_security_alert` calls, alert
ids are allocated from the monotonic counter, hence strictly increasing
and never reused, and every created alert is persisted both in the
global index and in the per-user index. -/
theorem create_security_alert_spec (st : MonitorState)
    (env : List (Nat × Nat × Nat × Nat)) :
    ((run_alert_calls st env).1).Pairwise (fun a b => a.id < b.id)
    ∧ ∀ a ∈ (run_alert_calls st env).1,
        (run_alert_calls st env).2.security_alerts a.id = some a ∧
          a.id ∈ (run_alert_calls st env).2.user_alerts a.user :=
  ⟨run_alert_calls_sorted env st,
   fun a ha => run_alert_calls_persisted env st a ha⟩

/-- Witness for C6: a single alert created from the empty state is
persisted under id 1 in the global index and in user 4's index. -/
theorem create_security_alert_spec_witness :
    (run_alert_calls ⟨0, fun _ => none, fun _ => []⟩
        [(4, 90, 1, 1000)]).2.security_alerts 1 =
      some ⟨1, 4, 90, 1, 1000⟩ ∧
    1 ∈ (run_alert_calls ⟨0, fun _ => none, fun _ => []⟩
        [(4, 90, 1, 1000)]).2.user_alerts 4 :=
  (create_security_alert_spec ⟨0, fun _ => none, fun _ => []⟩
    [(4, 90, 1, 1000)]).2 ⟨1, 4, 90, 1, 1000⟩ (by decide)

/-- Witness for C7: the transaction's own user obtains a proof and the
audit trail gains a `PROOF_CREATED` entry. -/
theorem create_transaction_proof_spec_witness :
    ∃ st', create_transaction_proof
        ⟨9, fun i => if i = 0 then
          some ⟨0, 4, 1, 100, 1000, 7, 0, false, []⟩ else none⟩ 4 0 =
        .ok (build_transaction_proof ⟨0, 4, 1, 100, 1000, 7, 0, false, []⟩, st')
      ∧ st'.transactions 0 = some ⟨0, 4, 1, 100, 1000, 7, 0, false,
          [] ++ [PROOF_CREATED]⟩ :=
  (create_transaction_proof_spec
    ⟨9, fun i => if i = 0 then
      some ⟨0, 4, 1, 100, 1000, 7, 0, false, []⟩ else none⟩ 4 0
    ⟨0, 4, 1, 100, 1000, 7, 0, false, []⟩ rfl).2 (Or.inl rfl)

/-- Helper: filtering out an element not satisfying `q` keeps the
`q`-count unchanged. -/
theorem countP_filter_ne_eq (q : Nat × Nat → Bool) (x : Nat × Nat)
    (hqx : q x = false) (l : List (Nat × Nat)) :
    List.countP q (l.filter (fun p => decide (¬ p = x))) =
      List.countP q l := by
  induction l with
  | nil => rfl
  | cons a l ih =>
      rw [List.filter_cons]
      by_cases hax : a = x
      · subst hax
        rw [if_neg (by simp), ih, List.countP_cons, hqx]
        simp
      · rw [if_pos (by simp [hax]), List.countP_cons, List.countP_cons, ih]

/-- Helper: filtering an element `x` out of a duplicate-free list lowers
any `q`-count by at most one. -/
theorem countP_filter_ne_ge (q : Nat × Nat → Bool) (x : Nat × Nat)
    (l : List (Nat × Nat)) (hnd : l.Nodup) :
    List.countP q l - 1 ≤
      List.countP q (l.filter (fun p => decide (¬ p = x))) := by
  induction l with
  | nil => simp
  | cons a l ih =>
      rw [List.nodup_cons] at hnd
      rw [List.filter_cons]
      by_cases hax : a = x
      · subst hax
        have hfl : l.filter (fun p => decide (¬ p = a)) = l := by
          rw [List.filter_eq_self]
          intro b hb
          simp only [decide_eq_true_iff]
          exact fun hba => hnd.1 (hba ▸ hb)
        rw [if_neg (by simp), hfl, List.countP_cons]
        split <;> omega
      · rw [if_pos (by simp [hax]), List.countP_cons, List.countP_cons]
        have hle := ih hnd.2
        by_cases hqa : q a = true
        · rw [if_pos hqa]
          omega
        · rw [if_neg hqa]
          omega

/-- Helper: filtering out an absent element is the identity. -/
theorem filter_ne_of_not_mem (x : Nat × Nat) (l : List (Nat × Nat))
    (hx : x ∉ l) : l.filter (fun p => decide (¬ p = x)) = l := by
  rw [List.filter_eq_self]
  intro b hb
  simp only [decide_eq_true_iff]
  exact fun hbx => hx (hbx ▸ hb)

/-- Helper: a successful grant never lowers the admin count. -/
theorem admin_count_grant_ge (st : AccessState) (c p r : Nat)
    (st' : AccessState) (hok : grant_role st c p r = .ok st') :
    admin_count st ≤ admin_count st' := by
  rw [grant_role] at hok
  by_cases hc : has_role st c ADMIN_ROLE = true
  · rw [if_pos hc] at hok
    by_cases hp : has_role st p r = true
    · rw [if_pos hp] at hok
      injection hok with h
      subst h
      exact le_refl _
    · rw [if_neg hp] at hok
      injection hok with h
      subst h
      simp only [admin_count, List.countP_cons]
      split <;> omega
  · rw [if_neg hc] at hok
    cases hok

/-- Helper: a successful grant preserves duplicate-freedom. -/
theorem grant_role_nodup (st : AccessState) (c p r : Nat)
    (st' : AccessState) (hnd : st.pairs.Nodup)
    (hok : grant_role st c p r = .ok st') : st'.pairs.Nodup := by
  rw [grant_role] at hok
  by_cases hc : has_role st c ADMIN_ROLE = true
  · rw [if_pos hc] at hok
    by_cases hp : has_role st p r = true
    · rw [if_pos hp] at hok
      injection hok with h
      subst h
      exact hnd
    · rw [if_neg hp] at hok
      injection hok with h
      subst h
      refine List.nodup_cons.2 ⟨?_, hnd⟩
      simpa [has_role] using hp
  · rw [if_neg hc] at hok
    cases hok

/-- Helper: a successful revoke preserves duplicate-freedom. -/
theorem revoke_role_nodup (st : AccessState) (c p r : Nat)
    (st' : AccessState) (hnd : st.pairs.Nodup)
    (hok : revoke_role st c p r = .ok st') : st'.pairs.Nodup := by
  rw [revoke_role] at hok
  by_cases hc : has_role st c ADMIN_ROLE = true
  · rw [if_pos hc] at hok
    by_cases hi : r = ADMIN_ROLE ∧ has_role st p ADMIN_ROLE = true ∧
        admin_count st ≤ 1
    · rw [if_pos hi] at hok
      cases hok
    · rw [if_neg hi] at hok
      injection hok with h
      subst h
      exact hnd.filter _
  · rw [if_neg hc] at hok
    cases hok

/-- Helper: a successful revoke from a duplicate-free registry with at
least one admin leaves at least one admin. -/
theorem admin_count_revoke_ge (st : AccessState) (c p r : Nat)
    (st' : AccessState) (hnd : st.pairs.Nodup)
    (h1 : 1 ≤ admin_count st)
    (hok : revoke_role st c p r = .ok st') : 1 ≤ admin_count st' := by
  rw [revoke_role] at hok
  by_cases hc : has_role st c ADMIN_ROLE = true
  · rw [if_pos hc] at hok
    by_cases hi : r = ADMIN_ROLE ∧ has_role st p ADMIN_ROLE = true ∧
        admin_count st ≤ 1
    · rw [if_pos hi] at hok
      cases hok
    · rw [if_neg hi] at hok
      injection hok with h
      subst h
      by_cases hr : r = ADMIN_ROLE
      · subst hr
        by_cases hp : has_role st p ADMIN_ROLE = true
        · have h2 : 2 ≤ admin_count st := by
            rcases Nat.lt_or_ge (admin_count st) 2 with hlt | hge
            · exact absurd ⟨rfl, hp, by omega⟩ hi
            · exact hge
          have := countP_filter_ne_ge (fun q => q.2 == ADMIN_ROLE)
            (p, ADMIN_ROLE) st.pairs hnd
          simp only [admin_count] at h2 ⊢
          omega
        · have hnm : (p, ADMIN_ROLE) ∉ st.pairs := by
            simpa [has_role] using hp
          simp only [admin_count]
          rw [filter_ne_of_not_mem _ _ hnm]
          exact h1
      · have hq : ((p, r).2 == ADMIN_ROLE) = false := by
          simpa using hr
        simp only [admin_count]
        rw [countP_filter_ne_eq _ _ hq]
        exact h1
  · rw [if_neg hc] at hok
    cases hok

/-- Helper: one registry call preserves duplicate-freedom and the
presence of at least one admin. -/
theorem apply_op_invariant (st : AccessState) (op : AccessOp)
    (hnd : st.pairs.Nodup) (h1 : 1 ≤ admin_count st) :
    (apply_op st op).pairs.Nodup ∧ 1 ≤ admin_count (apply_op st op) := by
  cases op with
  | grant c p r =>
      simp only [apply_op]
      cases hg : grant_role st c p r with
      | ok st' =>
          exact ⟨grant_role_nodup st c p r st' hnd hg,
            le_trans h1 (admin_count_grant_ge st c p r st' hg)⟩
      | error e => exact ⟨hnd, h1⟩
  | revoke c p r =>
      simp only [apply_op]
      cases hg : revoke_role st c p r with
      | ok st' =>
          exact ⟨revoke_role_nodup st c p r st' hnd hg,
            admin_count_revoke_ge st c p r st' hnd h1 hg⟩
      | error e => exact ⟨hnd, h1⟩

/-- Helper: no sequence of registry calls can empty the admin set. -/
theorem apply_ops_admin_count (ops : List AccessOp) (st : AccessState)
    (hnd : st.pairs.Nodup) (h1 : 1 ≤ admin_count st) :
    1 ≤ admin_count (apply_ops st ops) := by
  induction ops generalizing st with
  | nil => exact h1
  | cons op ops ih =>
      have h := apply_op_invariant st op hnd h1
      exact ih _ h.1 h.2

/-- C8: `revoke_role(admin_caller, last_admin, ADMIN)` fails with
`LastAdminRevocationDenied` when exactly one admin exists, succeeds when
two or more exist, and no sequence of grant/revoke calls can leave the
registry with zero admins. -/
theorem revoke_role_last_admin_spec (st : AccessState)
    (caller target : Nat)
    (hc : has_role st caller ADMIN_ROLE = true)
    (ht : has_role st target ADMIN_ROLE = true) :
    (admin_count st = 1 →
        revoke_role st caller target ADMIN_ROLE =
          .error .LastAdminRevocationDenied)
    ∧ (2 ≤ admin_count st →
        ∃ st', revoke_role st caller target ADMIN_ROLE = .ok st')
    ∧ (∀ ops : List AccessOp, st.pairs.Nodup →
        1 ≤ admin_count (apply_ops st ops)) := by
  have hmem : (caller, ADMIN_ROLE) ∈ st.pairs := by
    simpa [has_role] using hc
  have h1 : 1 ≤ admin_count st :=
    List.countP_pos_iff.2 ⟨(caller, ADMIN_ROLE), hmem, by simp⟩
  refine ⟨?_, ?_, ?_⟩
  · intro hone
    rw [revoke_role, if_pos hc, if_pos ⟨rfl, ht, by omega⟩]
  · intro htwo
    refine ⟨⟨st.pairs.filter
      (fun p => decide (¬ p = (target, ADMIN_ROLE)))⟩, ?_⟩
    rw [revoke_role, if_pos hc, if_neg ?_]
    rintro ⟨-, -, hle⟩
    omega
  · intro ops hnd
    exact apply_ops_admin_count ops st hnd h1

/-- Witness for C8: revoking the sole admin from a one-admin registry is
denied, while revoking one of two admins succeeds. -/
theorem revoke_role_last_admin_spec_witness :
    (revoke_role ⟨[(4, ADMIN_ROLE)]⟩ 4 4 ADMIN_ROLE =
        .error .LastAdminRevocationDenied)
    ∧ ∃ st', revoke_role ⟨[(4, ADMIN_ROLE), (5, ADMIN_ROLE)]⟩ 4 5
        ADMIN_ROLE = .ok st' :=
  ⟨(revoke_role_last_admin_spec ⟨[(4, ADMIN_ROLE)]⟩ 4 4
      (by decide) (by decide)).1 (by decide),
   (revoke_role_last_admin_spec ⟨[(4, ADMIN_ROLE), (5, ADMIN_ROLE)]⟩ 4 5
      (by decide) (by decide)).2.1 (by decide)⟩

end StarkPulse
